import Mathlib

/-!
Verification development for the SSR-audit pipeline in `word-cloud-email.js`.

The JavaScript source is shallowly embedded: pure functions become Lean
functions over `List Char` / `String` / `ℚ`; the network, the browser
renderer and the CSV writer are external collaborators and are modelled as
explicit environments (records of outcomes) threaded through the embedded
control flow.  JS `undefined` becomes `Option`, thrown-and-caught errors
become `Except Unit`.
-/

namespace FindingSSR

/-! ## Whitespace model

JS `\s` (used by `replace(/\s+/g, ' ')`) and `String.prototype.trim` match
the ECMAScript WhiteSpace and LineTerminator code points, listed here. -/

/-- Code points of the ECMAScript whitespace class `\s`. -/
def wsCodes : List Nat :=
  [0x9, 0xA, 0xB, 0xC, 0xD, 0x20, 0xA0, 0x1680,
   0x2000, 0x2001, 0x2002, 0x2003, 0x2004, 0x2005, 0x2006, 0x2007,
   0x2008, 0x2009, 0x200A, 0x2028, 0x2029, 0x202F, 0x205F, 0x3000, 0xFEFF]

/-- Whether a character matches JS `\s`. -/
def isWs (c : Char) : Bool := c.toNat ∈ wsCodes

/-- Helper for `collapseWs`, carrying whether the previous character was
whitespace (in which case the current run has already emitted its space). -/
def collapseWsAux : Bool → List Char → List Char
  | _, [] => []
  | prevWs, c :: t =>
    if isWs c then
      if prevWs then collapseWsAux true t else ' ' :: collapseWsAux true t
    else c :: collapseWsAux false t

/-- Model of `s.replace(/\s+/g, ' ')`: every maximal run of whitespace
characters is replaced by a single space. -/
def collapseWs (l : List Char) : List Char := collapseWsAux false l

/-- Model of `String.prototype.trim`: drop leading and trailing whitespace. -/
def trimWs (l : List Char) : List Char :=
  List.rdropWhile isWs (l.dropWhile isWs)

/-! ## HTML captures

A `RenderCapture` is modelled as the parsed DOM subtree of the document
body (`cheerio.load` + `$("body")` select the body; parsing itself is the
external HTML parser).  Element nodes carry a tag name and children; text
nodes carry character data.  Comments are dropped by the parser model since
they contribute nothing to `.text()`. -/

inductive Html where
  | textNode : List Char → Html
  | elemNode : String → List Html → Html

mutual

/-- Model of `$(el).text()` as cheerio (≥ 1.0.0-rc.10) implements it via
domutils `textContent`: the concatenated data of all descendant text
nodes, including those inside `script` and `style` elements. -/
def textContent : Html → List Char
  | .textNode s => s
  | .elemNode _ cs => textContentList cs

/-- Concatenated `textContent` of a node list, in document order. -/
def textContentList : List Html → List Char
  | [] => []
  | h :: t => textContent h ++ textContentList t

end

mutual

/-- Modelled from the spec: the visible text of the body with the content
of `script` and `style` elements excluded (before whitespace folding).
This is the document text the spec sentence for claim C4 describes; it is
kept separate so it can be compared with the text the code extracts. -/
def visibleContent : Html → List Char
  | .textNode s => s
  | .elemNode tag cs =>
    if tag = "script" ∨ tag = "style" then [] else visibleContentList cs

/-- Concatenated `visibleContent` of a node list, in document order. -/
def visibleContentList : List Html → List Char
  | [] => []
  | h :: t => visibleContent h ++ visibleContentList t

end

/-- Model of `extractText(html)`:
`cheerio.load(html); $('body').text().replace(/\s+/g, ' ').trim()`. -/
def extractText (body : Html) : List Char :=
  trimWs (collapseWs (textContent body))

/-- Modelled from the spec: text extraction as claim C4 states it, with
script and style content excluded. -/
def specExtractText (body : Html) : List Char :=
  trimWs (collapseWs (visibleContent body))

/-! ## SSR percentage -/

/-- Model of JS `x.toFixed(2)` on a finite nonnegative value: round to the
nearest hundredth (ties upward, as ECMAScript picks the larger candidate). -/
def toFixed2 (q : ℚ) : ℚ := (round (q * 100) : ℤ) / 100

/-- Model of `calculateSSRPercentage(initialHtml, finalHtml)`. -/
def calculateSSRPercentage (initialHtml finalHtml : Html) : ℚ :=
  let initialText := extractText initialHtml
  let finalText := extractText finalHtml
  let initialLength := initialText.length
  let finalLength := finalText.length
  if finalLength = 0 then 0
  else toFixed2 ((initialLength : ℚ) / (finalLength : ℚ) * 100)

/-! ## JS array deduplication

Both HTML sitemap strategies, the rendering fallback and the word-cloud
word set use the JS idiom
`arr.filter((value, index, self) => self.indexOf(value) === index)`
(respectively `new Set`, which keeps first-seen insertion order).  The
idiom is embedded literally: `jsIndexOf` is `Array.prototype.indexOf`
(−1 when absent) and `jsFilterWithIndex` is `filter` with the element
index passed to the callback. -/

/-- Model of `Array.prototype.indexOf`: index of the first occurrence,
`-1` when the value does not occur. -/
def jsIndexOf [DecidableEq α] : List α → α → Int
  | [], _ => -1
  | b :: t, a =>
    if a = b then 0
    else if jsIndexOf t a = -1 then -1 else jsIndexOf t a + 1

/-- Model of `Array.prototype.filter` with the element index supplied to
the callback; `i` is the index of the first element of the remaining list. -/
def jsFilterWithIndex (f : α → Nat → Bool) : List α → Nat → List α
  | [], _ => []
  | a :: t, i =>
    if f a i then a :: jsFilterWithIndex f t (i + 1)
    else jsFilterWithIndex f t (i + 1)

/-- Model of `arr.filter((value, index, self) => self.indexOf(value) === index)`. -/
def jsDedup [DecidableEq α] (l : List α) : List α :=
  jsFilterWithIndex (fun v i => jsIndexOf l v = (i : Int)) l 0

/-- Modelled from the spec: deduplication by exact equality keeping the
first occurrence of each element, preserving first-seen order.  Used as
the reference semantics against which `jsDedup` is proved equal. -/
def dedupKeepFirst [DecidableEq α] : List α → List α
  | [] => []
  | a :: t => a :: dedupKeepFirst (t.filter (fun x => x ≠ a))
termination_by l => l.length
decreasing_by
  exact Nat.lt_succ_of_le (t.length_filter_le _)

theorem jsIndexOf_nonneg_of_ne [DecidableEq α] (l : List α) (a : α)
    (h : jsIndexOf l a ≠ -1) : 0 ≤ jsIndexOf l a := by
  induction l with
  | nil => exact absurd rfl h
  | cons b t ih =>
    rw [jsIndexOf] at h ⊢
    by_cases hab : a = b
    · rw [if_pos hab]
    · rw [if_neg hab] at h ⊢
      by_cases ht : jsIndexOf t a = -1
      · rw [if_pos ht] at h
        exact absurd rfl h
      · rw [if_neg ht]
        have := ih ht
        omega

theorem jsIndexOf_eq_neg_one_iff [DecidableEq α] (l : List α) (a : α) :
    jsIndexOf l a = -1 ↔ a ∉ l := by
  induction l with
  | nil => simp [jsIndexOf]
  | cons b t ih =>
    by_cases hab : a = b
    · subst hab
      simp [jsIndexOf]
    · rw [jsIndexOf, if_neg hab]
      by_cases ht : jsIndexOf t a = -1
      · rw [if_pos ht]
        simp [hab, ih.mp ht]
      · rw [if_neg ht]
        have hpos := jsIndexOf_nonneg_of_ne t a ht
        constructor
        · intro h
          exact absurd h (by omega)
        · intro h
          have : a ∈ t := by
            by_contra hmem
            exact ht (ih.mpr hmem)
          exact absurd (List.mem_cons_of_mem b this) h

theorem jsIndexOf_append_cons [DecidableEq α] (pre : List α) (a : α) (t : List α) :
    jsIndexOf (pre ++ a :: t) a = (pre.length : Int) ↔ a ∉ pre := by
  induction pre with
  | nil => simp [jsIndexOf]
  | cons b pre' ih =>
    rw [List.cons_append, jsIndexOf]
    by_cases hab : a = b
    · subst hab
      rw [if_pos rfl, List.length_cons]
      constructor
      · intro h
        exfalso
        omega
      · intro h
        exact absurd (List.mem_cons_self a pre') h
    · have hmem : a ∈ pre' ++ a :: t := by simp
      have hne : jsIndexOf (pre' ++ a :: t) a ≠ -1 :=
        fun h => ((jsIndexOf_eq_neg_one_iff _ _).mp h) hmem
      rw [if_neg hab, if_neg hne, List.length_cons]
      constructor
      · intro h
        have h2 : jsIndexOf (pre' ++ a :: t) a = (pre'.length : Int) := by
          push_cast at h ⊢
          omega
        intro hc
        rcases List.mem_cons.mp hc with hc | hc
        · exact hab hc
        · exact (ih.mp h2) hc
      · intro h
        have h2 : a ∉ pre' := fun hc => h (List.mem_cons_of_mem b hc)
        have h3 := ih.mpr h2
        push_cast
        omega

theorem jsFilterWithIndex_dedup [DecidableEq α] (l : List α) :
    ∀ (t pre : List α), l = pre ++ t →
      jsFilterWithIndex (fun v i => jsIndexOf l v = (i : Int)) t pre.length =
        dedupKeepFirst (t.filter (fun x => x ∉ pre)) := by
  intro t
  induction t with
  | nil => intro pre _; simp [jsFilterWithIndex, dedupKeepFirst]
  | cons a t' ih =>
    intro pre hl
    subst hl
    have hcond : (jsIndexOf (pre ++ a :: t') a = (pre.length : Int)) ↔ a ∉ pre :=
      jsIndexOf_append_cons pre a t'
    have hlen : pre.length + 1 = (pre ++ [a]).length := by simp
    have hl' : pre ++ a :: t' = (pre ++ [a]) ++ t' := by simp
    by_cases hmem : a ∈ pre
    · rw [jsFilterWithIndex, if_neg (by simpa [hcond] using hmem)]
      rw [hlen, ih (pre ++ [a]) hl']
      have heq : (t'.filter (fun x => x ∉ pre ++ [a])) = t'.filter (fun x => x ∉ pre) := by
        apply List.filter_congr
        intro x _
        rw [decide_eq_decide]
        constructor
        · intro h; exact fun hx => h (List.mem_append_left _ hx)
        · intro h hx
          rcases List.mem_append.mp hx with hx | hx
          · exact h hx
          · rw [List.mem_singleton] at hx
            subst hx
            exact h hmem
      rw [heq]
      have hfil : (a :: t').filter (fun x => x ∉ pre) = t'.filter (fun x => x ∉ pre) := by
        rw [List.filter_cons]
        simp [hmem]
      rw [hfil]
    · rw [jsFilterWithIndex, if_pos (by simpa [hcond] using hmem)]
      rw [hlen, ih (pre ++ [a]) hl']
      have hfil : (a :: t').filter (fun x => x ∉ pre) =
          a :: t'.filter (fun x => x ∉ pre) := by
        rw [List.filter_cons]
        simp [hmem]
      rw [hfil, dedupKeepFirst]
      have heq : (t'.filter (fun x => x ∉ pre ++ [a])) =
          (t'.filter (fun x => x ∉ pre)).filter (fun x => x ≠ a) := by
        rw [List.filter_filter]
        apply List.filter_congr
        intro x _
        rw [← Bool.decide_and, decide_eq_decide]
        constructor
        · intro h
          refine ⟨fun hx => h ?_, fun hx => h (List.mem_append_left _ hx)⟩
          subst hx
          exact List.mem_append_right _ (List.mem_singleton_self x)
        · rintro ⟨hne, hnp⟩ hx
          rcases List.mem_append.mp hx with hx | hx
          · exact hnp hx
          · rw [List.mem_singleton] at hx
            exact hne hx
      rw [heq]

theorem jsDedup_eq_dedupKeepFirst [DecidableEq α] (l : List α) :
    jsDedup l = dedupKeepFirst l := by
  have h := jsFilterWithIndex_dedup l l [] (by simp)
  simpa [jsDedup] using h

theorem mem_dedupKeepFirst [DecidableEq α] {l : List α} {x : α} :
    x ∈ dedupKeepFirst l ↔ x ∈ l := by
  induction l using dedupKeepFirst.induct with
  | case1 => simp [dedupKeepFirst]
  | case2 a t ih =>
    rw [dedupKeepFirst]
    by_cases hx : x = a
    · simp [hx]
    · simp only [List.mem_cons, hx, false_or, ih, List.mem_filter]
      simp [hx]

theorem nodup_dedupKeepFirst [DecidableEq α] (l : List α) :
    (dedupKeepFirst l).Nodup := by
  induction l using dedupKeepFirst.induct with
  | case1 => simp [dedupKeepFirst]
  | case2 a t ih =>
    rw [dedupKeepFirst]
    refine List.nodup_cons.mpr ⟨?_, ih⟩
    intro hmem
    have := (mem_dedupKeepFirst.mp hmem)
    simp at this

theorem sublist_dedupKeepFirst [DecidableEq α] (l : List α) :
    List.Sublist (dedupKeepFirst l) l := by
  induction l using dedupKeepFirst.induct with
  | case1 => simp [dedupKeepFirst]
  | case2 a t ih =>
    rw [dedupKeepFirst]
    exact (ih.trans (List.filter_sublist t)).cons₂ a

/-! ## SEO relevance and page selection -/

/-- Whether text character `a` matches lowercase pattern letter `b` under
the regex `i` flag: equal, or `a` is the uppercase ASCII form of `b`. -/
def matchesCI (a b : Char) : Bool :=
  a = b || (65 ≤ a.toNat && a.toNat ≤ 90 && a.toNat + 32 = b.toNat)

/-- Whether `needle` matches at the start of `hay`, case-insensitively. -/
def startsWithCI : List Char → List Char → Bool
  | _, [] => true
  | [], _ :: _ => false
  | a :: hay, b :: needle => matchesCI a b && startsWithCI hay needle

/-- Whether `needle` matches contiguously anywhere in `hay`,
case-insensitively. -/
def containsCI : List Char → List Char → Bool
  | [], needle => startsWithCI [] needle
  | a :: hay, needle => startsWithCI (a :: hay) needle || containsCI hay needle

/-- The keyword vocabulary of the regex
`/product|blog|articles|post|category|news|shop|item|service/i`. -/
def seoKeywords : List (List Char) :=
  ["product".data, "blog".data, "articles".data, "post".data, "category".data,
   "news".data, "shop".data, "item".data, "service".data]

/-- Model of `isSEORelevantPage(url)`: the case-insensitive regex test is a
case-insensitive substring search for any of the alternation keywords. -/
def isSEORelevantPage (url : String) : Bool :=
  seoKeywords.any (fun kw => containsCI url.data kw)

/-- Model of a JS array index access `urls[i]`: `undefined` out of range. -/
def jsIndex (l : List α) (i : Nat) : Option α := l.get? i

/-- Model of `selectPages(urls)`.  The JS function returns an array of
`string | undefined`: `[urls[0]]` when fewer than 3 URLs are given
(which is `[undefined]` for the empty list), else homepage, mid and deep
slots. -/
def selectPages (urls : List String) : List (Option String) :=
  if urls.length < 3 then [jsIndex urls 0]
  else
    let relevantPages := urls.filter isSEORelevantPage
    let midPage :=
      if relevantPages.length > 0 then jsIndex relevantPages (relevantPages.length / 2)
      else jsIndex urls (urls.length / 2)
    let deepPage :=
      if relevantPages.length > 1 then jsIndex relevantPages (relevantPages.length - 1)
      else jsIndex urls (urls.length - 1)
    [jsIndex urls 0, midPage, deepPage]

/-! ## Link discovery

`fetchSitemap` walks `["sitemap.xml", "sitemap", "site-map"]`, catching any
error per strategy, and finally falls back to `scrapeInternalLinks`.  The
network and the parsers are external, so a `DiscoveryEnv` records what each
strategy would observe for the homepage being processed:

* `xmlOutcome = some locs` — `GET /sitemap.xml` succeeded, `xml2js` parsed
  the body, `result.urlset.url` is present and the `<loc>` values are
  `locs` (xml2js only materialises the field when at least one `<url>`
  entry exists).  `none` — the fetch, the parse or the field access threw.
* `sitemapAnchors` / `siteMapAnchors` — for `GET /sitemap` and
  `GET /site-map`: the `href`s of the root-relative anchors of the loaded
  document, already resolved against the homepage, in document order and
  not yet deduplicated; `none` when the fetch or a URL resolution threw.
* `renderedAnchors` — the same anchor list observed by the puppeteer render
  of the homepage in `scrapeInternalLinks`; `Except.error` when the
  browser launch/navigation threw (which `fetchSitemap` does not catch).
-/

structure DiscoveryEnv where
  xmlOutcome : Option (List String)
  sitemapAnchors : Option (List String)
  siteMapAnchors : Option (List String)
  renderedAnchors : Except Unit (List String)

/-- The discovery strategies, in the order `fetchSitemap` tries them. -/
inductive Strategy where
  | xmlSitemap
  | htmlSitemap
  | htmlSiteMap
  | renderFallback
deriving DecidableEq

/-- Model of `fetchSitemap(url)` (with `scrapeInternalLinks` as its final
fallback), returning the list of strategies attempted in order, and the
discovered links or the propagated error of the fallback render. -/
def fetchSitemapT (env : DiscoveryEnv) : List Strategy × Except Unit (List String) :=
  match env.xmlOutcome with
  | some locs => ([.xmlSitemap], .ok locs)
  | none =>
    match env.sitemapAnchors with
    | some anchors => ([.xmlSitemap, .htmlSitemap], .ok (jsDedup anchors))
    | none =>
      match env.siteMapAnchors with
      | some anchors => ([.xmlSitemap, .htmlSitemap, .htmlSiteMap], .ok (jsDedup anchors))
      | none =>
        match env.renderedAnchors with
        | .error e => ([.xmlSitemap, .htmlSitemap, .htmlSiteMap, .renderFallback], .error e)
        | .ok anchors =>
          ([.xmlSitemap, .htmlSitemap, .htmlSiteMap, .renderFallback], .ok (jsDedup anchors))

/-! ## Output rows and the orchestrator

`analyzeWebsite` is modelled as a function from a per-site environment to
the list of CSV rows written for that site (the output collaborator is the
row list) plus a trace of the externally visible steps it performed.

The environment fields follow the source order:

* `detect` — outcome of launching the browser, navigating to the input URL
  and running `detectReact`; `Except.error` for any throw on that path.
* `urlParses` — whether `new URL(inputUrl)` in `getHomepageUrl` succeeds.
* `denv` — the `DiscoveryEnv` seen by the `fetchSitemap` call.
* `scrapeRaw` — anchor list observed by the orchestrator-level
  `scrapeInternalLinks` fallback (line 319), before its in-page dedup.
* `analyze` — outcome of `analyzeSSR(pageUrl)` per URL: the two-decimal
  SSR percentage on success (captured HTML and title are not needed by
  any claim and are abstracted away), `Except.error` for a render failure.
* `emailFails` — whether `createEmailWithWordCloud` throws after the rows
  were written (its puppeteer render can fail).
-/

/-- The `SSR Percentage` CSV cell: a numeric string, `"N/A"` or `"Error"`. -/
inductive SSRCell where
  | na
  | err
  | pct (q : ℚ)
deriving DecidableEq

/-- The `Page Depth` CSV cell. -/
inductive DepthCell where
  | homepage
  | mid
  | deep
  | na
  | err
deriving DecidableEq

/-- One CSV output row, with the fields `csvWriter` is configured with. -/
structure Row where
  baseUrl : String
  analyzedUrl : String
  isReact : Bool
  ssrPercentage : SSRCell
  depth : DepthCell
deriving DecidableEq

/-- Externally visible steps of one `analyzeWebsite` run. -/
inductive Step where
  | detect
  | discover
  | scrape
  | select
  | analyzePage (url : String)
  | email
deriving DecidableEq

structure SiteEnv where
  detect : Except Unit Bool
  urlParses : Bool
  denv : DiscoveryEnv
  scrapeRaw : Except Unit (List String)
  analyze : String → Except Unit ℚ
  emailFails : Bool

/-- The row the `catch` block at the end of `analyzeWebsite` writes. -/
def errorRow (u : String) : Row := ⟨u, u, false, .err, .err⟩

/-- The row written when framework detection is negative. -/
def naRow (u : String) : Row := ⟨u, u, false, .na, .na⟩

/-- JS truthiness of a `string | undefined` loop variable: `undefined` and
the empty string are falsy. -/
def jsTruthy : Option String → Bool
  | none => false
  | some s => !(s == "")

/-- The loop array `[[homePage, "Homepage"], [midPage, "Mid"], [deepPage, "Deep"]]`
obtained by destructuring the `selectPages` result (destructuring a
too-short array yields `undefined` slots). -/
def pageSlots (sel : List (Option String)) : List (Option String × DepthCell) :=
  [((jsIndex sel 0).join, .homepage), ((jsIndex sel 1).join, .mid), ((jsIndex sel 2).join, .deep)]

/-- Model of the per-page `for … of` loop body: analyze each truthy page
URL in order, accumulating result rows.  Returns the `analyzeSSR` calls
made, the rows pushed to `results` before any failure, and whether the
loop ran to completion (`false` means `analyzeSSR` threw and control
jumped to the site-level `catch`). -/
def runPages (analyze : String → Except Unit ℚ) (baseUrl : String) :
    List (Option String × DepthCell) → List Step × List Row × Bool
  | [] => ([], [], true)
  | (p, d) :: rest =>
    if jsTruthy p then
      match p with
      | some url =>
        match analyze url with
        | .error _ => ([.analyzePage url], [], false)
        | .ok q =>
          (.analyzePage url :: (runPages analyze baseUrl rest).1,
           ⟨baseUrl, url, true, .pct q, d⟩ :: (runPages analyze baseUrl rest).2.1,
           (runPages analyze baseUrl rest).2.2)
      | none => runPages analyze baseUrl rest
    else runPages analyze baseUrl rest

/-- Shared tail of both orchestrator branches: write `results`, then (when
a worst page exists, i.e. at least one page was analyzed) build the email;
an email failure reaches the site-level `catch`, which appends the error
row after the already-written rows. -/
def finishSite (emailFails : Bool) (u : String) (pre : List Step)
    (r : List Step × List Row × Bool) : List Row × List Step :=
  if r.2.2 then
    if r.2.1.isEmpty then (r.2.1, pre ++ r.1)
    else if emailFails then (r.2.1 ++ [errorRow u], pre ++ r.1 ++ [.email])
    else (r.2.1, pre ++ r.1 ++ [.email])
  else ([errorRow u], pre ++ r.1)

/-- Model of `analyzeWebsite(inputUrl)`: the rows written to the output
CSV for this site, and the trace of performed steps. -/
def analyzeWebsiteT (env : SiteEnv) (u : String) : List Row × List Step :=
  match env.detect with
  | .error _ => ([errorRow u], [.detect])
  | .ok false => ([naRow u], [.detect])
  | .ok true =>
    if env.urlParses then
      match (fetchSitemapT env.denv).2 with
      | .error _ => ([errorRow u], [.detect, .discover])
      | .ok sitemapUrls =>
        if 2 < sitemapUrls.length then
          finishSite env.emailFails u [.detect, .discover, .select]
            (runPages env.analyze u (pageSlots (selectPages sitemapUrls)))
        else
          match env.scrapeRaw with
          | .error _ => ([errorRow u], [.detect, .discover, .scrape])
          | .ok raw =>
            let internalLinks := jsDedup raw
            if 0 < internalLinks.length then
              finishSite env.emailFails u [.detect, .discover, .scrape, .select]
                (runPages env.analyze u (pageSlots (selectPages internalLinks)))
            else ([], [.detect, .discover, .scrape])
    else ([errorRow u], [.detect])

/-- The rows a site contributes to the output report. -/
def analyzeWebsiteRows (env : SiteEnv) (u : String) : List Row :=
  (analyzeWebsiteT env u).1

/-! ## Word-frequency diff

`createEmailWithWordCloud` receives the two frequency maps (JS objects,
modelled as association lists with lookup-first semantics, matching unique
object keys in insertion order) and builds the word-cloud entry list. -/

/-- One word-cloud entry `{ word, weight, color }`. -/
structure WordEntry where
  word : String
  weight : Nat
  color : String
deriving DecidableEq

/-- Model of `counts[word] || 0`. -/
def countOf (m : List (String × Nat)) (w : String) : Nat :=
  (m.lookup w).getD 0

/-- The body of the `allWords.forEach` loop: push an entry only when the
word appears in the scripting-enabled (user) view, green when the
no-scripting (google) view also has it, grey otherwise. -/
def mkEntry (userWordCounts googleWordCounts : List (String × Nat)) (word : String) :
    Option WordEntry :=
  let userCount := countOf userWordCounts word
  let googleCount := countOf googleWordCounts word
  if userCount > 0 then
    some ⟨word, userCount, if googleCount > 0 then "#4CAF50" else "#808080"⟩
  else none

/-- Model of the `wordData` construction: iterate the `Set` of all keys of
both maps (a JS `Set` keeps first-seen insertion order, which is the
`jsDedup` of the concatenated key lists), pushing at most one entry per
word. -/
def wordData (userWordCounts googleWordCounts : List (String × Nat)) : List WordEntry :=
  (jsDedup (userWordCounts.map Prod.fst ++ googleWordCounts.map Prod.fst)).filterMap
    (mkEntry userWordCounts googleWordCounts)

/-! ## Supporting lemmas -/

theorem dropWhile_head?_not (p : α → Bool) (l : List α) :
    ∀ c, (l.dropWhile p).head? = some c → p c = false := by
  induction l with
  | nil => intro c hc; simp [List.dropWhile] at hc
  | cons a t ih =>
    intro c hc
    by_cases hpa : p a = true
    · rw [List.dropWhile_cons, if_pos hpa] at hc
      exact ih c hc
    · rw [List.dropWhile_cons, if_neg hpa] at hc
      rw [List.head?_cons, Option.some_inj] at hc
      subst hc
      exact Bool.not_eq_true _ ▸ hpa

theorem filter_not_dropWhile (p : α → Bool) (l : List α) :
    (l.dropWhile p).filter (fun c => !p c) = l.filter (fun c => !p c) := by
  induction l with
  | nil => rfl
  | cons a t ih =>
    by_cases hpa : p a = true
    · rw [List.dropWhile_cons, if_pos hpa, ih, List.filter_cons]
      simp [hpa]
    · rw [List.dropWhile_cons, if_neg hpa]

theorem collapseWsAux_filter (l : List Char) :
    ∀ b, (collapseWsAux b l).filter (fun c => !isWs c) = l.filter (fun c => !isWs c) := by
  induction l with
  | nil => intro b; rfl
  | cons c t ih =>
    intro b
    have hsp : isWs ' ' = true := by decide
    by_cases hws : isWs c = true
    · cases b <;>
        simp [collapseWsAux, hws, List.filter_cons, ih, hsp]
    · simp [collapseWsAux, hws, List.filter_cons, ih]

theorem collapseWs_filter (l : List Char) :
    (collapseWs l).filter (fun c => !isWs c) = l.filter (fun c => !isWs c) :=
  collapseWsAux_filter l false

theorem collapseWsAux_true_head?_not_ws (l : List Char) :
    ∀ c, (collapseWsAux true l).head? = some c → isWs c = false := by
  induction l with
  | nil => intro c hc; simp [collapseWsAux] at hc
  | cons a t ih =>
    intro c hc
    by_cases hws : isWs a = true
    · rw [collapseWsAux, if_pos hws, if_pos rfl] at hc
      exact ih c hc
    · rw [collapseWsAux, if_neg hws, List.head?_cons, Option.some_inj] at hc
      subst hc
      exact Bool.not_eq_true _ ▸ hws

theorem collapseWsAux_chain' (l : List Char) :
    ∀ b, (collapseWsAux b l).Chain' (fun a b => isWs a = false ∨ isWs b = false) := by
  induction l with
  | nil => intro b; simp [collapseWsAux]
  | cons a t ih =>
    intro b
    by_cases hws : isWs a = true
    · cases b with
      | true =>
        rw [collapseWsAux, if_pos hws, if_pos rfl]
        exact ih true
      | false =>
        rw [collapseWsAux, if_pos hws, if_neg (by simp)]
        refine List.chain'_cons'.mpr ⟨?_, ih true⟩
        intro y hy
        exact Or.inr (collapseWsAux_true_head?_not_ws t y hy)
    · rw [collapseWsAux, if_neg hws]
      refine List.chain'_cons'.mpr ⟨?_, ih false⟩
      intro y _
      exact Or.inl (Bool.not_eq_true _ ▸ hws)

theorem collapseWs_chain' (l : List Char) :
    (collapseWs l).Chain' (fun a b => isWs a = false ∨ isWs b = false) :=
  collapseWsAux_chain' l false

theorem collapseWsAux_ws_eq_space (l : List Char) :
    ∀ b, ∀ c ∈ collapseWsAux b l, isWs c = true → c = ' ' := by
  induction l with
  | nil => intro b c hc; simp [collapseWsAux] at hc
  | cons a t ih =>
    intro b c hc hcw
    by_cases hws : isWs a = true
    · cases b with
      | true =>
        rw [collapseWsAux, if_pos hws, if_pos rfl] at hc
        exact ih true c hc hcw
      | false =>
        rw [collapseWsAux, if_pos hws, if_neg (by simp)] at hc
        rcases List.mem_cons.mp hc with hc | hc
        · exact hc
        · exact ih true c hc hcw
    · rw [collapseWsAux, if_neg hws] at hc
      rcases List.mem_cons.mp hc with hc | hc
      · subst hc
        exact absurd hcw (by simpa using hws)
      · exact ih false c hc hcw

theorem collapseWs_ws_eq_space (l : List Char) :
    ∀ c ∈ collapseWs l, isWs c = true → c = ' ' :=
  collapseWsAux_ws_eq_space l false

theorem trimWs_filter (l : List Char) :
    (trimWs l).filter (fun c => !isWs c) = l.filter (fun c => !isWs c) := by
  unfold trimWs List.rdropWhile
  rw [List.filter_reverse, filter_not_dropWhile, List.filter_reverse,
    List.reverse_reverse, filter_not_dropWhile]

theorem trimWs_head?_not_ws (l : List Char) :
    ∀ c, (trimWs l).head? = some c → isWs c = false := by
  intro c hc
  obtain ⟨t, ht⟩ := List.rdropWhile_prefix isWs (l.dropWhile isWs)
  apply dropWhile_head?_not isWs l c
  rw [← ht, List.head?_append]
  rw [trimWs] at hc
  rw [hc]
  rfl

theorem trimWs_getLast?_not_ws (l : List Char) :
    ∀ c, (trimWs l).getLast? = some c → isWs c = false := by
  intro c hc
  obtain ⟨hne, heq⟩ := List.mem_getLast?_eq_getLast (Option.mem_def.mpr hc)
  have h2 := List.rdropWhile_last_not isWs (l.dropWhile isWs) hne
  subst heq
  simpa using h2

theorem trimWs_chain' (l : List Char) :
    (trimWs (collapseWs l)).Chain' (fun a b => isWs a = false ∨ isWs b = false) :=
  List.Chain'.prefix ((collapseWs_chain' l).suffix (List.dropWhile_suffix isWs))
    ( List.rdropWhile_prefix isWs _)

theorem trimWs_sublist (l : List Char) : List.Sublist (trimWs l) l :=
  (( List.rdropWhile_prefix isWs _).sublist).trans (List.dropWhile_suffix isWs).sublist

/-! Rounding bounds for the SSR percentage. -/

theorem toFixed2_nonneg (q : ℚ) (h : 0 ≤ q) : 0 ≤ toFixed2 q := by
  unfold toFixed2
  have h1 : (0 : ℤ) ≤ round (q * 100) := by
    rw [round_eq]
    refine Int.floor_nonneg.mpr ?_
    nlinarith
  have h2 : (0 : ℚ) ≤ (round (q * 100) : ℤ) := by exact_mod_cast h1
  positivity

theorem toFixed2_le_100 (q : ℚ) (h : q ≤ 100) : toFixed2 q ≤ 100 := by
  unfold toFixed2
  have h1 : round (q * 100) ≤ round ((100 : ℚ) * 100) := by
    rw [round_eq, round_eq]
    exact Int.floor_le_floor (by nlinarith)
  have h2 : round ((100 : ℚ) * 100) = 10000 := by norm_num
  have h3 : ((round (q * 100) : ℤ) : ℚ) ≤ 10000 := by
    rw [h2] at h1
    exact_mod_cast h1
  linarith

/-! Facts about `countOf`. -/

theorem countOf_pos_mem_keys (m : List (String × Nat)) (w : String)
    (h : 0 < countOf m w) : w ∈ m.map Prod.fst := by
  induction m with
  | nil => simp [countOf, List.lookup] at h
  | cons kv t ih =>
    obtain ⟨k, v⟩ := kv
    by_cases hwk : w = k
    · simp [hwk]
    · have hbeq : (w == k) = false := by simp [hwk]
      rw [countOf, List.lookup_cons, hbeq] at h
      exact List.mem_cons_of_mem _ (ih h)

/-! Facts about the per-page loop. -/

theorem runPages_rows_pct (analyze : String → Except Unit ℚ) (u : String) :
    ∀ slots, ∀ r ∈ (runPages analyze u slots).2.1,
      ∃ q, r.ssrPercentage = SSRCell.pct q := by
  intro slots
  induction slots with
  | nil => simp [runPages]
  | cons pd rest ih =>
    obtain ⟨p, d⟩ := pd
    by_cases hp : jsTruthy p = true
    · cases p with
      | none => simpa [runPages, hp] using ih
      | some url =>
        cases hq : analyze url with
        | error e => simp [runPages, hp, hq]
        | ok q =>
          intro r hr
          simp only [runPages, hp, hq, if_pos] at hr
          rcases List.mem_cons.mp hr with hr | hr
          · exact ⟨q, by rw [hr]⟩
          · exact ih r hr
    · simpa [runPages, hp] using ih

theorem runPages_done_rows_nil (analyze : String → Except Unit ℚ) (u : String) :
    ∀ slots, (runPages analyze u slots).2.2 = true →
      (runPages analyze u slots).2.1 = [] → (runPages analyze u slots).1 = [] := by
  intro slots
  induction slots with
  | nil => intro _ _; rfl
  | cons pd rest ih =>
    obtain ⟨p, d⟩ := pd
    by_cases hp : jsTruthy p = true
    · cases p with
      | none => simpa [runPages, hp] using ih
      | some url =>
        cases hq : analyze url with
        | error e => intro hdone _; simp [runPages, hp, hq] at hdone
        | ok q => intro _ hrows; simp [runPages, hp, hq] at hrows
    · simpa [runPages, hp] using ih

/-! ## Claim theorems -/

/-- Environment for the C5 counterexample: `/sitemap.xml` parses and lists
the same `<loc>` twice. -/
def c5DupEnv : DiscoveryEnv :=
  ⟨some ["https://d.com/p", "https://d.com/p"], none, none, .ok []⟩

/-- C5 counterexample: the claim says every discovery path, including the
XML sitemap strategy, returns a deduplicated sequence.  But the XML branch
of `fetchSitemap` returns `result.urlset.url.map(u => u.loc[0])` with no
dedup: a sitemap listing the same URL twice is returned with the
duplicate. -/
theorem c5_counterexample :
    (fetchSitemapT c5DupEnv).2 = .ok ["https://d.com/p", "https://d.com/p"] ∧
      ¬ (["https://d.com/p", "https://d.com/p"] : List String).Nodup := by
  constructor
  · rfl
  · decide

/-- C5 (amended): the two HTML sitemap strategies and the rendering
fallback each return their anchor list deduplicated by exact string with
first-seen insertion order preserved (`jsDedup`, proved equal to the
first-occurrence dedup `dedupKeepFirst`, which is a nodup sublist of its
input containing exactly its elements); the XML sitemap strategy returns
the `<loc>` entries exactly as listed, without deduplication. -/
theorem c5_discovery_dedup_amended (env : DiscoveryEnv) :
    (∀ locs, env.xmlOutcome = some locs → (fetchSitemapT env).2 = .ok locs) ∧
    (∀ anchors, env.xmlOutcome = none → env.sitemapAnchors = some anchors →
      (fetchSitemapT env).2 = .ok (dedupKeepFirst anchors)) ∧
    (∀ anchors, env.xmlOutcome = none → env.sitemapAnchors = none →
      env.siteMapAnchors = some anchors →
      (fetchSitemapT env).2 = .ok (dedupKeepFirst anchors)) ∧
    (∀ anchors, env.xmlOutcome = none → env.sitemapAnchors = none →
      env.siteMapAnchors = none → env.renderedAnchors = .ok anchors →
      (fetchSitemapT env).2 = .ok (dedupKeepFirst anchors)) ∧
    (∀ l : List String, (dedupKeepFirst l).Nodup ∧
      List.Sublist (dedupKeepFirst l) l ∧ ∀ x, x ∈ dedupKeepFirst l ↔ x ∈ l) := by
  refine ⟨?_, ?_, ?_, ?_, ?_⟩
  · intro locs h1
    simp only [fetchSitemapT, h1]
  · intro anchors h1 h2
    simp only [fetchSitemapT, h1, h2, jsDedup_eq_dedupKeepFirst]
  · intro anchors h1 h2 h3
    simp only [fetchSitemapT, h1, h2, h3, jsDedup_eq_dedupKeepFirst]
  · intro anchors h1 h2 h3 h4
    simp only [fetchSitemapT, h1, h2, h3, h4, jsDedup_eq_dedupKeepFirst]
  · intro l
    exact ⟨nodup_dedupKeepFirst l, sublist_dedupKeepFirst l,
      fun x => mem_dedupKeepFirst⟩

/-- Witness for the amended C5: a concrete `/sitemap` HTML page with a
repeated anchor is returned deduplicated in first-seen order. -/
theorem c5_discovery_dedup_amended_witness :
    (fetchSitemapT
        ⟨none, some ["https://d.com/p", "https://d.com/q", "https://d.com/p"], none,
          .ok []⟩).2 =
      .ok (dedupKeepFirst ["https://d.com/p", "https://d.com/q", "https://d.com/p"]) :=
  (c5_discovery_dedup_amended _).2.1 _ rfl rfl

/-- C6: when the `/sitemap.xml` strategy succeeds with a parseable sitemap
holding at least one URL entry, discovery returns exactly those entries
and attempts no other strategy (the attempted-strategy trace is just the
XML strategy). -/
theorem c6_xml_first_success (env : DiscoveryEnv) (locs : List String)
    (hxml : env.xmlOutcome = some locs) (hne : locs ≠ []) :
    fetchSitemapT env = ([Strategy.xmlSitemap], .ok locs) := by
  unfold fetchSitemapT
  rw [hxml]

/-- Witness for C6 at a concrete environment with two sitemap entries. -/
theorem c6_xml_first_success_witness :
    fetchSitemapT ⟨some ["https://e.com/a", "https://e.com/b"], some ["https://e.com/x"],
        some ["https://e.com/y"], .ok ["https://e.com/z"]⟩ =
      ([Strategy.xmlSitemap], .ok ["https://e.com/a", "https://e.com/b"]) :=
  c6_xml_first_success _ _ rfl (List.cons_ne_nil _ _)

/-- C7: a site whose framework-detection probe returns false yields
exactly one output row, with SSR Percentage `N/A` and Page Depth `N/A`,
and the run performs no discovery, scraping, page selection, page
analysis or email step (the trace is detection only). -/
theorem c7_not_react_short_circuit (env : SiteEnv) (u : String)
    (hdet : env.detect = .ok false) :
    analyzeWebsiteT env u = ([naRow u], [Step.detect]) := by
  unfold analyzeWebsiteT
  rw [hdet]

/-- Environment of a site whose detection probe answers false. -/
def c7Env : SiteEnv :=
  { detect := .ok false
    urlParses := true
    denv := ⟨some ["https://n.com/a", "https://n.com/b", "https://n.com/c"], none, none, .ok []⟩
    scrapeRaw := .ok []
    analyze := fun _ => .ok 10
    emailFails := false }

/-- Witness for C7 at a concrete site. -/
theorem c7_not_react_short_circuit_witness :
    analyzeWebsiteT c7Env "https://n.com" = ([naRow "https://n.com"], [Step.detect]) :=
  c7_not_react_short_circuit c7Env "https://n.com" rfl

/-- The candidate list for C9: four URLs of which exactly two are
SEO-relevant, making `relevantPages[floor(2/2)]` and
`relevantPages[2-1]` the same element. -/
def c9Urls : List String :=
  ["https://ex.com/", "https://ex.com/blog-one", "https://ex.com/shop-two",
   "https://ex.com/team"]

/-- Site environment whose discovery yields `c9Urls` and whose renders all
succeed. -/
def c9Env : SiteEnv :=
  { detect := .ok true
    urlParses := true
    denv := ⟨some c9Urls, none, none, .ok []⟩
    scrapeRaw := .ok []
    analyze := fun _ => .ok 80
    emailFails := false }

/-- C9: for a candidate list of length at least 3 whose SEO-relevant
subset has exactly 2 members, `selectPages` returns the same URL for the
mid and the deep slot, and the orchestrator consequently analyzes and
emits that page twice for the site. -/
theorem c9_mid_deep_coincide :
    3 ≤ c9Urls.length ∧
    (c9Urls.filter isSEORelevantPage).length = 2 ∧
    selectPages c9Urls =
      [some "https://ex.com/", some "https://ex.com/shop-two",
        some "https://ex.com/shop-two"] ∧
    (analyzeWebsiteRows c9Env "https://ex.com").map Row.analyzedUrl =
      ["https://ex.com/", "https://ex.com/shop-two", "https://ex.com/shop-two"] := by
  refine ⟨by decide, by decide, by decide, by decide⟩

/-- C10: for the empty candidate list, `selectPages` does not fail: it
returns the one-element selection `[undefined]` (modelled `[none]`), and
the per-page loop of the orchestrator, whose guard skips falsy page
values, analyzes no page and produces no row. -/
theorem c10_empty_selection_safe :
    selectPages [] = [none] ∧
      ∀ (analyze : String → Except Unit ℚ) (u : String),
        runPages analyze u (pageSlots (selectPages [])) = ([], [], true) :=
  ⟨rfl, fun _ _ => rfl⟩

/-- Initial (no-scripting) capture for the C1 counterexample: four
characters of body text. -/
def c1InitialBody : Html := .elemNode "body" [.textNode "abcd".data]

/-- Final (scripting-enabled) capture for the C1 counterexample: two
characters of body text. -/
def c1FinalBody : Html := .elemNode "body" [.textNode "ab".data]

/-- C1 counterexample: the claim bounds the SSR percentage by 100
whenever the scripting-enabled extract is nonempty, but when the
no-scripting text is longer than the scripting-enabled text the ratio
exceeds 100 — here the final text has length 2 > 0 and the computation
returns 200. -/
theorem c1_counterexample :
    (extractText c1FinalBody).length = 2 ∧
      calculateSSRPercentage c1InitialBody c1FinalBody = 200 := by
  refine ⟨by decide, ?_⟩
  have h1 : (extractText c1InitialBody).length = 4 := by decide
  have h2 : (extractText c1FinalBody).length = 2 := by decide
  simp only [calculateSSRPercentage, h1, h2]
  rw [if_neg (by norm_num)]
  unfold toFixed2
  have h3 : ((4 : ℕ) : ℚ) / ((2 : ℕ) : ℚ) * 100 * 100 = ((20000 : ℤ) : ℚ) := by norm_num
  rw [h3, round_intCast]
  norm_num

/-- C1 (amended): for every pair of HTML captures the SSR-percentage
computation is total and never yields an undefined value; it is
nonnegative, equals exactly 0 when the scripting-enabled extract is
empty, and is bounded by 100 whenever the no-scripting extract is at most
as long as the scripting-enabled one (without that condition it can
exceed 100). -/
theorem c1_ssr_range_amended (initialHtml finalHtml : Html) :
    0 ≤ calculateSSRPercentage initialHtml finalHtml ∧
    ((extractText finalHtml).length = 0 →
      calculateSSRPercentage initialHtml finalHtml = 0) ∧
    ((extractText initialHtml).length ≤ (extractText finalHtml).length →
      calculateSSRPercentage initialHtml finalHtml ≤ 100) := by
  by_cases hf : (extractText finalHtml).length = 0
  · have hcalc : calculateSSRPercentage initialHtml finalHtml = 0 := by
      simp only [calculateSSRPercentage]
      rw [if_pos hf]
    rw [hcalc]
    exact ⟨le_refl 0, fun _ => rfl, fun _ => by norm_num⟩
  · have hfpos : 0 < ((extractText finalHtml).length : ℚ) := by
      exact_mod_cast Nat.pos_of_ne_zero hf
    simp only [calculateSSRPercentage, if_neg hf]
    refine ⟨?_, fun h => absurd h hf, ?_⟩
    · exact toFixed2_nonneg _ (by positivity)
    · intro hle
      apply toFixed2_le_100
      have hdiv : ((extractText initialHtml).length : ℚ) /
          ((extractText finalHtml).length : ℚ) ≤ 1 :=
        (div_le_one hfpos).mpr (by exact_mod_cast hle)
      nlinarith

/-- Witness for the amended C1: a capture pair with empty final text gives
exactly 0; with shorter initial text the value is at most 100; the value
is nonnegative on the counterexample pair as well. -/
theorem c1_ssr_range_amended_witness :
    calculateSSRPercentage c1InitialBody (.elemNode "body" []) = 0 ∧
    calculateSSRPercentage c1FinalBody c1InitialBody ≤ 100 ∧
    0 ≤ calculateSSRPercentage c1InitialBody c1FinalBody :=
  ⟨(c1_ssr_range_amended _ _).2.1 (by decide),
   (c1_ssr_range_amended _ _).2.2 (by decide),
   (c1_ssr_range_amended _ _).1⟩

/-- Body capture with a script element for the C4 counterexample. -/
def c4ScriptBody : Html := .elemNode "body" [.elemNode "script" [.textNode "alert".data]]

/-- C4 counterexample: the claim says the content of script elements is
excluded, but cheerio `.text()` concatenates all descendant text nodes,
so a body whose only content is a script yields that script text, while
the spec-described extraction yields the empty string. -/
theorem c4_counterexample :
    extractText c4ScriptBody = "alert".data ∧
    specExtractText c4ScriptBody = [] ∧
    extractText c4ScriptBody ≠ specExtractText c4ScriptBody := by
  refine ⟨by decide, by decide, by decide⟩

/-- C4 (amended): text extraction returns the text content of the
document body with the content of script and style elements included,
whitespace runs collapsed to single spaces, and leading and trailing
whitespace trimmed.  Formally: the result never has two adjacent
whitespace characters, does not start or end with whitespace, every
whitespace character in it is a single space, and its non-whitespace
characters are exactly those of the body text content (scripts and
styles included), in order. -/
theorem c4_extract_text_amended (body : Html) :
    (extractText body).Chain' (fun a b => isWs a = false ∨ isWs b = false) ∧
    (∀ c, (extractText body).head? = some c → isWs c = false) ∧
    (∀ c, (extractText body).getLast? = some c → isWs c = false) ∧
    (∀ c ∈ extractText body, isWs c = true → c = ' ') ∧
    (extractText body).filter (fun c => !isWs c) =
      (textContent body).filter (fun c => !isWs c) := by
  refine ⟨?_, ?_, ?_, ?_, ?_⟩
  · exact trimWs_chain' (textContent body)
  · exact trimWs_head?_not_ws _
  · exact trimWs_getLast?_not_ws _
  · intro c hc hcw
    exact collapseWs_ws_eq_space (textContent body) c
      ((trimWs_sublist (collapseWs (textContent body))).subset hc) hcw
  · calc (extractText body).filter (fun c => !isWs c)
        = (collapseWs (textContent body)).filter (fun c => !isWs c) :=
          trimWs_filter _
      _ = (textContent body).filter (fun c => !isWs c) := collapseWs_filter _

/-- Body capture used to witness the amended C4. -/
def c4Body : Html :=
  .elemNode "body"
    [.textNode "  seo  text ".data, .elemNode "script" [.textNode " var x = 1 ".data]]

/-- Witness for the amended C4 at a concrete capture whose extracted text
starts with the letter s. -/
theorem c4_extract_text_amended_witness :
    isWs 's' = false ∧
    (extractText c4Body).filter (fun c => !isWs c) =
      (textContent c4Body).filter (fun c => !isWs c) :=
  ⟨(c4_extract_text_amended c4Body).2.1 's' (by decide),
   (c4_extract_text_amended c4Body).2.2.2.2⟩

/-- The candidate list whose page selection actually feeds the per-page
loop of `analyzeWebsite`, when one runs: the discovered sitemap URLs if
more than 2 were found, else the deduplicated links of the scrape
fallback if at least one was found; `none` when no loop runs (a
discovery or scrape error, or zero fallback links). -/
def selectedCandidates (env : SiteEnv) : Option (List String) :=
  match (fetchSitemapT env.denv).2 with
  | .error _ => none
  | .ok sitemapUrls =>
    if 2 < sitemapUrls.length then some sitemapUrls
    else
      match env.scrapeRaw with
      | .error _ => none
      | .ok raw =>
        if 0 < (jsDedup raw).length then some (jsDedup raw) else none

/-- C2 (amended): when `analyzeSSR` throws partway through the per-site
per-page loop — on either branch, the sitemap-discovery loop or the
scrape-fallback loop — the rows already accumulated in the local
`results` array are NOT written: control jumps to the site-level catch,
which writes the single Error row, and none of the previously produced
rows appears in the output of the site. -/
theorem c2_midloop_rows_discarded (env : SiteEnv) (u : String) (cands : List String)
    (hdet : env.detect = .ok true) (hurl : env.urlParses = true)
    (hcands : selectedCandidates env = some cands)
    (hfail : (runPages env.analyze u (pageSlots (selectPages cands))).2.2 = false) :
    analyzeWebsiteRows env u = [errorRow u] ∧
      ∀ r ∈ (runPages env.analyze u (pageSlots (selectPages cands))).2.1,
        r ∉ analyzeWebsiteRows env u := by
  have hrows : analyzeWebsiteRows env u = [errorRow u] := by
    cases hdisc : (fetchSitemapT env.denv).2 with
    | error e =>
      exfalso
      simp only [selectedCandidates, hdisc] at hcands
      cases hcands
    | ok sitemapUrls =>
      simp only [selectedCandidates, hdisc] at hcands
      by_cases hlen : 2 < sitemapUrls.length
      · rw [if_pos hlen] at hcands
        obtain rfl : sitemapUrls = cands := Option.some_inj.mp hcands
        simp only [analyzeWebsiteRows, analyzeWebsiteT, hdet, hurl, hdisc, if_true]
        rw [if_pos hlen]
        simp [finishSite, hfail]
      · rw [if_neg hlen] at hcands
        cases hscrape : env.scrapeRaw with
        | error e =>
          exfalso
          simp only [hscrape] at hcands
          cases hcands
        | ok raw =>
          simp only [hscrape] at hcands
          by_cases hlinks : 0 < (jsDedup raw).length
          · rw [if_pos hlinks] at hcands
            obtain rfl : jsDedup raw = cands := Option.some_inj.mp hcands
            simp only [analyzeWebsiteRows, analyzeWebsiteT, hdet, hurl, hdisc, if_true]
            rw [if_neg hlen]
            simp only [hscrape]
            rw [if_pos hlinks]
            simp [finishSite, hfail]
          · exfalso
            rw [if_neg hlinks] at hcands
            cases hcands
  refine ⟨hrows, ?_⟩
  intro r hr hmem
  rw [hrows, List.mem_singleton] at hmem
  obtain ⟨q, hq⟩ := runPages_rows_pct env.analyze u _ r hr
  rw [hmem] at hq
  simp [errorRow] at hq

/-- The three candidate URLs of the C2 scenario. -/
def c2Urls : List String :=
  ["https://s.com/", "https://s.com/blog-a", "https://s.com/shop-b"]

/-- Site environment for C2: detection passes, discovery yields three
URLs, the homepage render succeeds with SSR 50, every other page render
throws. -/
def c2Env : SiteEnv :=
  { detect := .ok true
    urlParses := true
    denv := ⟨some c2Urls, none, none, .ok []⟩
    scrapeRaw := .ok []
    analyze := fun url => if url = "https://s.com/" then .ok 50 else .error ()
    emailFails := false }

/-- C2 counterexample: in the concrete scenario the homepage row was
produced before the second page threw, yet the output of the site is only the
Error row — the already-produced row is not written, contradicting the
claim. -/
theorem c2_counterexample :
    (runPages c2Env.analyze "https://s.com" (pageSlots (selectPages c2Urls))).2.1 =
      [⟨"https://s.com", "https://s.com/", true, .pct 50, .homepage⟩] ∧
    (runPages c2Env.analyze "https://s.com" (pageSlots (selectPages c2Urls))).2.2 = false ∧
    analyzeWebsiteRows c2Env "https://s.com" = [errorRow "https://s.com"] :=
  ⟨rfl, rfl, rfl⟩

/-- Site environment for the scrape-fallback variant of C2: discovery
finds only one sitemap URL (not more than 2), the orchestrator-level
scrape of the rendered homepage observes the three candidate URLs, the
homepage render succeeds with SSR 50, every other page render throws. -/
def c2FallbackEnv : SiteEnv :=
  { detect := .ok true
    urlParses := true
    denv := ⟨some ["https://s.com/"], none, none, .ok []⟩
    scrapeRaw := .ok c2Urls
    analyze := fun url => if url = "https://s.com/" then .ok 50 else .error ()
    emailFails := false }

/-- Witness for the amended C2 on both per-page loops: the
sitemap-discovery scenario and the scrape-fallback scenario each lose
the already-produced homepage row and emit only the Error row. -/
theorem c2_midloop_rows_discarded_witness :
    (analyzeWebsiteRows c2Env "https://s.com" = [errorRow "https://s.com"] ∧
      (⟨"https://s.com", "https://s.com/", true, .pct 50, .homepage⟩ : Row) ∉
        analyzeWebsiteRows c2Env "https://s.com") ∧
    (analyzeWebsiteRows c2FallbackEnv "https://s.com" = [errorRow "https://s.com"] ∧
      (⟨"https://s.com", "https://s.com/", true, .pct 50, .homepage⟩ : Row) ∉
        analyzeWebsiteRows c2FallbackEnv "https://s.com") := by
  have h1 := c2_midloop_rows_discarded c2Env "https://s.com" c2Urls rfl rfl rfl rfl
  have h2 := c2_midloop_rows_discarded c2FallbackEnv "https://s.com" (jsDedup c2Urls)
    rfl rfl rfl rfl
  exact ⟨⟨h1.1, h1.2 _ (by exact List.mem_singleton_self _)⟩,
    ⟨h2.1, h2.2 _ (by exact List.mem_singleton_self _)⟩⟩

theorem mkEntry_eq_some (u g : List (String × Nat)) (w : String) (e : WordEntry) :
    mkEntry u g w = some e ↔
      0 < countOf u w ∧
        e = ⟨w, countOf u w, if 0 < countOf g w then "#4CAF50" else "#808080"⟩ := by
  unfold mkEntry
  by_cases hc : 0 < countOf u w
  · rw [if_pos hc]
    constructor
    · intro h
      exact ⟨hc, (Option.some_inj.mp h).symm⟩
    · intro ⟨_, he⟩
      rw [he]
  · rw [if_neg hc]
    constructor
    · intro h
      cases h
    · intro ⟨hpos, _⟩
      exact absurd hpos hc

theorem wordData_map_word (u g : List (String × Nat)) :
    (wordData u g).map WordEntry.word =
      (jsDedup (u.map Prod.fst ++ g.map Prod.fst)).filter
        (fun w => decide (0 < countOf u w)) := by
  unfold wordData
  generalize jsDedup (u.map Prod.fst ++ g.map Prod.fst) = l
  induction l with
  | nil => rfl
  | cons w t ih =>
    rw [List.filterMap_cons, List.filter_cons]
    by_cases hc : 0 < countOf u w
    · have hmk : mkEntry u g w =
          some ⟨w, countOf u w, if 0 < countOf g w then "#4CAF50" else "#808080"⟩ :=
        (mkEntry_eq_some u g w _).mpr ⟨hc, rfl⟩
      rw [hmk]
      simp [ih, hc]
    · have hmk : mkEntry u g w = none := by
        unfold mkEntry
        rw [if_neg hc]
      rw [hmk]
      simp [ih, hc]

/-- C8: the word diff emits exactly one entry per distinct word with
non-zero frequency in the scripting-enabled (user) map; the weight of
each entry is that frequency, hence never 0; an entry is colored green
(visible to both renderers) iff the frequency of the word in the no-scripting
(google) map is non-zero; words occurring only in the no-scripting map
are excluded. -/
theorem c8_word_diff (user google : List (String × Nat)) :
    ((wordData user google).map WordEntry.word).Nodup ∧
    (∀ w, w ∈ (wordData user google).map WordEntry.word ↔ 0 < countOf user w) ∧
    (∀ e ∈ wordData user google,
      e.weight = countOf user e.word ∧ 0 < e.weight ∧
      (e.color = "#4CAF50" ↔ 0 < countOf google e.word)) := by
  refine ⟨?_, ?_, ?_⟩
  · rw [wordData_map_word, jsDedup_eq_dedupKeepFirst]
    exact (nodup_dedupKeepFirst _).filter _
  · intro w
    rw [wordData_map_word, List.mem_filter]
    constructor
    · rintro ⟨_, h⟩
      simpa using h
    · intro h
      refine ⟨?_, by simpa using h⟩
      rw [jsDedup_eq_dedupKeepFirst]
      exact mem_dedupKeepFirst.mpr
        (List.mem_append_left _ (countOf_pos_mem_keys user w h))
  · intro e he
    obtain ⟨w, _, hmk⟩ := List.mem_filterMap.mp he
    obtain ⟨hpos, he2⟩ := (mkEntry_eq_some user google w e).mp hmk
    subst he2
    refine ⟨rfl, hpos, ?_⟩
    by_cases hg : 0 < countOf google w
    · rw [if_pos hg]
      exact iff_of_true rfl hg
    · rw [if_neg hg]
      exact iff_of_false (fun h => by simp at h) hg

/-- Witness for C8 at concrete frequency maps: the word seo is visible in
both views, with weight its user-view frequency. -/
theorem c8_word_diff_witness :
    ("seo" ∈ (wordData [("seo", 2)] [("seo", 1), ("ads", 3)]).map WordEntry.word ↔
      0 < countOf [("seo", 2)] "seo") ∧
    ((⟨"seo", 2, "#4CAF50"⟩ : WordEntry).weight = countOf [("seo", 2)] "seo" ∧
      0 < (⟨"seo", 2, "#4CAF50"⟩ : WordEntry).weight ∧
      ((⟨"seo", 2, "#4CAF50"⟩ : WordEntry).color = "#4CAF50" ↔
        0 < countOf [("seo", 1), ("ads", 3)] "seo")) :=
  ⟨(c8_word_diff [("seo", 2)] [("seo", 1), ("ads", 3)]).2.1 "seo",
   (c8_word_diff [("seo", 2)] [("seo", 1), ("ads", 3)]).2.2
     ⟨"seo", 2, "#4CAF50"⟩ (by decide)⟩

/-- C3 (amended): the output report contains at least one row per input
site, EXCEPT that a site which passes framework detection but for which
no page ends up analyzed (discovery plus the scrape fallback yield no
usable candidate, e.g. zero links) contributes zero rows.  Formally:
whenever the per-site output is empty, detection necessarily returned true
and the run performed no `analyzeSSR` call. -/
theorem c3_zero_rows_amended (env : SiteEnv) (u : String)
    (h : analyzeWebsiteRows env u = []) :
    env.detect = .ok true ∧ ∀ p, Step.analyzePage p ∉ (analyzeWebsiteT env u).2 := by
  cases hdet : env.detect with
  | error e =>
    exfalso
    simp [analyzeWebsiteRows, analyzeWebsiteT, hdet] at h
  | ok b =>
    cases b with
    | false =>
      exfalso
      simp [analyzeWebsiteRows, analyzeWebsiteT, hdet] at h
    | true =>
      refine ⟨rfl, ?_⟩
      intro p
      cases hurl : env.urlParses with
      | false =>
        exfalso
        simp [analyzeWebsiteRows, analyzeWebsiteT, hdet, hurl] at h
      | true =>
        cases hdisc : (fetchSitemapT env.denv).2 with
        | error e =>
          exfalso
          simp [analyzeWebsiteRows, analyzeWebsiteT, hdet, hurl, hdisc] at h
        | ok sitemapUrls =>
          by_cases hlen : 2 < sitemapUrls.length
          · simp only [analyzeWebsiteRows, analyzeWebsiteT, hdet, hurl, hdisc,
              if_true] at h ⊢
            rw [if_pos hlen] at h ⊢
            cases hdone : (runPages env.analyze u (pageSlots (selectPages sitemapUrls))).2.2 with
            | false =>
              exfalso
              simp [finishSite, hdone] at h
            | true =>
              cases hempty :
                  (runPages env.analyze u (pageSlots (selectPages sitemapUrls))).2.1.isEmpty with
              | true =>
                have hrows : (runPages env.analyze u
                    (pageSlots (selectPages sitemapUrls))).2.1 = [] := by
                  simpa using hempty
                have hsteps : (runPages env.analyze u
                    (pageSlots (selectPages sitemapUrls))).1 = [] :=
                  runPages_done_rows_nil env.analyze u _ hdone hrows
                simp [finishSite, hdone, hempty, hsteps]
              | false =>
                exfalso
                have hne : (runPages env.analyze u
                    (pageSlots (selectPages sitemapUrls))).2.1 ≠ [] := by
                  intro hnil
                  rw [hnil] at hempty
                  simp at hempty
                cases hmail : env.emailFails with
                | true => simp [finishSite, hdone, hempty, hmail] at h
                | false =>
                  simp [finishSite, hdone, hempty, hmail] at h
                  exact hne h
          · cases hscrape : env.scrapeRaw with
            | error e =>
              exfalso
              simp [analyzeWebsiteRows, analyzeWebsiteT, hdet, hurl, hdisc, hlen,
                hscrape] at h
            | ok raw =>
              by_cases hlinks : 0 < (jsDedup raw).length
              · simp only [analyzeWebsiteRows, analyzeWebsiteT, hdet, hurl, hdisc,
                  if_true] at h ⊢
                rw [if_neg hlen] at h ⊢
                simp only [hscrape] at h ⊢
                rw [if_pos hlinks] at h ⊢
                cases hdone : (runPages env.analyze u (pageSlots (selectPages (jsDedup raw)))).2.2 with
                | false =>
                  exfalso
                  simp [finishSite, hdone] at h
                | true =>
                  cases hempty :
                      (runPages env.analyze u (pageSlots (selectPages (jsDedup raw)))).2.1.isEmpty with
                  | true =>
                    have hrows : (runPages env.analyze u
                        (pageSlots (selectPages (jsDedup raw)))).2.1 = [] := by
                      simpa using hempty
                    have hsteps : (runPages env.analyze u
                        (pageSlots (selectPages (jsDedup raw)))).1 = [] :=
                      runPages_done_rows_nil env.analyze u _ hdone hrows
                    simp [finishSite, hdone, hempty, hsteps]
                  | false =>
                    exfalso
                    have hne : (runPages env.analyze u
                        (pageSlots (selectPages (jsDedup raw)))).2.1 ≠ [] := by
                      intro hnil
                      rw [hnil] at hempty
                      simp at hempty
                    cases hmail : env.emailFails with
                    | true => simp [finishSite, hdone, hempty, hmail] at h
                    | false =>
                      simp [finishSite, hdone, hempty, hmail] at h
                      exact hne h
              · simp only [analyzeWebsiteT, hdet, hurl, hdisc, if_true]
                rw [if_neg hlen]
                simp only [hscrape]
                rw [if_neg hlinks]
                simp

/-- Site environment for the C3 scenario: detection passes, all sitemap
strategies fail, the rendering fallbacks observe zero links. -/
def c3Env : SiteEnv :=
  { detect := .ok true
    urlParses := true
    denv := ⟨none, none, none, .ok []⟩
    scrapeRaw := .ok []
    analyze := fun _ => .error ()
    emailFails := false }

/-- C3 counterexample: a site that passes framework detection but whose
discovery and every fallback yield zero candidate links produces ZERO
output rows, not the at-least-one row the claim requires. -/
theorem c3_counterexample : analyzeWebsiteRows c3Env "https://z.com" = [] := by decide

/-- Witness for the amended C3 at the concrete zero-candidate site. -/
theorem c3_zero_rows_amended_witness :
    c3Env.detect = .ok true ∧
      Step.analyzePage "https://z.com/a" ∉ (analyzeWebsiteT c3Env "https://z.com").2 := by
  have h := c3_zero_rows_amended c3Env "https://z.com" (by decide)
  exact ⟨h.1, h.2 "https://z.com/a"⟩

end FindingSSR
